import Mathlib

/-!
Verification of the QR inventory system's shipment-ingestion and
status-lifecycle core against its natural-language specification.

The Python views in `inventory/views.py` (and `inventory/api_views.py`,
`inventory/models.py`) are shallowly embedded below: text is `List Char`
(so that the scan-payload splitting of `scanner_landing` can be reasoned
about character by character), machine integers are `Int`/`Nat`, database
rows are Lean structures, and each endpoint is a pure function from its
inputs and the current row list to a result (`Except` for fallible
endpoints).  Timestamps are abstract `Nat` ticks supplied by the caller
(standing for `timezone.now()`).
-/

/-- Text, as a list of characters (Python `str`). -/
abbrev Str := List Char

/-- Coerce a Lean string literal to the `Str` representation. -/
def str (s : String) : Str := s.data

/-- Whitespace test used by Python's `str.strip()`. -/
def isPySpace (c : Char) : Bool := c.isWhitespace

/-- Python `str.strip()`: drop whitespace from both ends. -/
def trimChars (s : Str) : Str :=
  ((s.dropWhile isPySpace).reverse.dropWhile isPySpace).reverse

/-- Accumulate decimal digits into a number (`int` parsing helper). -/
def digitsToNat : Nat → Str → Nat
  | acc, [] => acc
  | acc, c :: cs => digitsToNat (acc * 10 + (c.toNat - 48)) cs

/-- All characters are ASCII decimal digits. -/
def allDigits (s : Str) : Bool := s.all Char.isDigit

/-- Python `int(s)`: strip whitespace, optional sign, then decimal digits;
anything else raises `ValueError` (modelled as `none`).  Decimal strings
such as "3.5" are therefore rejected, not truncated. -/
def pyInt (s : Str) : Option Int :=
  match trimChars s with
  | '-' :: ds => if !ds.isEmpty && allDigits ds then some (-(digitsToNat 0 ds : Int)) else none
  | '+' :: ds => if !ds.isEmpty && allDigits ds then some ((digitsToNat 0 ds : Int)) else none
  | ds => if !ds.isEmpty && allDigits ds then some ((digitsToNat 0 ds : Int)) else none

/-- Decimal rendering of a natural number (digits of `str(n)`), with fuel
for structural recursion. -/
def natToCharsAux : Nat → Nat → Str → Str
  | 0, _, acc => acc
  | fuel + 1, n, acc =>
    let acc' := Char.ofNat (48 + n % 10) :: acc
    if n < 10 then acc' else natToCharsAux fuel (n / 10) acc'

/-- Decimal rendering of a natural number, as in Python `str(n)`. -/
def natToChars (n : Nat) : Str := natToCharsAux (n + 1) n []

/-- Python `str(i)` for an integer. -/
def intToChars (i : Int) : Str :=
  if i < 0 then '-' :: natToChars i.natAbs else natToChars i.toNat

/-- Prepend a character to the first chunk of a split result. -/
def consHead (c : Char) : List Str → List Str
  | [] => [[c]]
  | l :: ls => (c :: l) :: ls

/-- Python `s.split(',')`. -/
def splitComma : Str → List Str
  | [] => [[]]
  | ',' :: rest => [] :: splitComma rest
  | c :: rest => consHead c (splitComma rest)

/-- Python `s.split(' | ')` (leftmost, non-overlapping occurrences of the
three-character separator), used by `scanner_landing` on the decoded QR
payload. -/
def splitSepBar : Str → List Str
  | [] => [[]]
  | [c] => [[c]]
  | [c, d] => [[c, d]]
  | c :: d :: e :: rest =>
    if c = ' ' ∧ d = '|' ∧ e = ' ' then [] :: splitSepBar rest
    else consHead c (splitSepBar (d :: e :: rest))

/-- First component of Python `part.split('=', 1)`. -/
def keyOf (s : Str) : Str := s.takeWhile (fun c => c != '=')

/-- Second component of Python `part.split('=', 1)` (everything after the
first `=`). -/
def valOf (s : Str) : Str := (s.dropWhile (fun c => c != '=')).drop 1

/-- The key/value pairs `scanner_landing` builds from the payload parts:
parts without an `=` are skipped, keys and values are stripped. -/
def payloadPairs (parts : List Str) : List (Str × Str) :=
  (parts.filter (fun p => p.contains '=')).map
    (fun p => (trimChars (keyOf p), trimChars (valOf p)))

/-- Python dict lookup with default, where later assignments overwrite
earlier ones (`data_dict[key] = value` in a loop). -/
def dictGet (k : Str) (pairs : List (Str × Str)) (dflt : Str) : Str :=
  match pairs.reverse.find? (fun kv => kv.fst == k) with
  | some kv => kv.snd
  | none => dflt

/-- The (manufacturer, pallet, box) triple `scanner_landing` extracts from a
decoded QR payload (views.py lines 42-53).  The percent-decode
(`urllib.parse.unquote`) of the percent-encode applied at creation is the
identity and is elided. -/
def scanLookupTriple (payload : Str) : Str × Str × Str :=
  let d := payloadPairs (splitSepBar payload)
  (dictGet (str "MFR") d [], dictGet (str "PALLET") d [], dictGet (str "BOX") d [])

/-- One `InventoryItem` row (models.py lines 6-70).  The two ORM-managed
`auto_now` timestamps are omitted; all application-managed fields are
present. -/
structure Item where
  id : Nat
  manufacturer : Str
  pallet_id : Str
  box_id : Nat
  project_number : Str
  content : Int
  damaged : Bool
  location : Str
  description : Str
  tags : Str
  status : Str
  barcode_payload : Str
  qr_url : Str
  checked_out_by : Str
  checked_out_at : Option Nat
  archived : Bool
  archived_at : Option Nat
deriving DecidableEq, Repr

/-- `InventoryItem.STATUS_CHOICES`: internal code paired with display label. -/
def statusChoices : List (Str × Str) :=
  [ (str "checked_in", str "Checked In"),
    (str "checked_out", str "Checked Out"),
    (str "tested", str "Tested"),
    (str "will_be_reused", str "Will Be Reused"),
    (str "recycling", str "Recycling") ]

/-- One `StatusHistory` row (models.py lines 73-93). -/
structure HistEntry where
  item_id : Nat
  old_status : Str
  new_status : Str
  notes : Str
  changed_by : Str
deriving DecidableEq, Repr

/-- One `ChangeLog` row (models.py lines 96-129). -/
structure ChangeEntry where
  item_id : Nat
  change_type : Str
  field_name : Str
  old_value : Str
  new_value : Str
  changed_by : Str
deriving DecidableEq, Repr

/-- The display-label to internal-code mapping hard-coded in `update_status`
(views.py lines 117-123). -/
def status_mapping : List (Str × Str) :=
  [ (str "Checked In", str "checked_in"),
    (str "Checked Out", str "checked_out"),
    (str "Tested", str "tested"),
    (str "Will Be Reused", str "will_be_reused"),
    (str "Recycling", str "recycling") ]

/-- Python `dict(pairs).get(k)`. -/
def assocGet (m : List (Str × Str)) (k : Str) : Option Str :=
  match m.find? (fun kv => kv.fst == k) with
  | some kv => some kv.snd
  | none => none

/-- Membership test `k in dict(InventoryItem.STATUS_CHOICES)`, used by
`bulk_update_status` (views.py line 329) and `edit_item` (line 1052-1053). -/
def isValidStatusCode (s : Str) : Bool :=
  statusChoices.any (fun kv => kv.fst == s)

/-- The status mutation shared by all status-update paths: set the new
status, and set or clear checkout attribution (views.py lines 130-141). -/
def applyStatusChange (item : Item) (status_value changed_by : Str) (now : Nat) : Item :=
  let old_status := item.status
  let item := { item with status := status_value }
  if status_value == str "checked_out" then
    { item with checked_out_by := changed_by, checked_out_at := some now }
  else if old_status == str "checked_out" && status_value != str "checked_out" then
    { item with checked_out_by := [], checked_out_at := none }
  else item

/-- `update_status` (views.py lines 109-159): translate the display label
through `status_mapping`, reject unknown labels with "Invalid status",
otherwise mutate the item and append a `StatusHistory` row. -/
def update_status (item : Item) (new_status notes changed_by : Str) (now : Nat) :
    Except Str (Item × HistEntry) :=
  match assocGet status_mapping new_status with
  | none => .error (str "Invalid status")
  | some status_value =>
    let old_status := item.status
    let item' := applyStatusChange item status_value changed_by now
    .ok (item', ⟨item.id, old_status, status_value, notes, changed_by⟩)

/-- The per-item body of `bulk_update_status` (views.py lines 333-354);
the status code was already validated against `STATUS_CHOICES`. -/
def bulk_update_status_item (item : Item) (new_status notes changed_by : Str) (now : Nat) :
    Item × HistEntry :=
  let old_status := item.status
  let item := { item with status := new_status }
  let item :=
    if new_status == str "checked_out" then
      { item with checked_out_by := changed_by, checked_out_at := some now }
    else if old_status == str "checked_out" then
      { item with checked_out_by := [], checked_out_at := none }
    else item
  let n := if notes.isEmpty then str "Bulk status update" else notes
  (item, ⟨item.id, old_status, new_status, n, changed_by⟩)

/-- `bulk_update_status` (views.py lines 316-358): validate the status code
up front, then update every selected item. -/
def bulk_update_status (db : List Item) (item_ids : List Nat)
    (new_status notes changed_by : Str) (now : Nat) :
    Except Str (List Item × List HistEntry) :=
  if item_ids.isEmpty || new_status.isEmpty then
    .error (str "Missing item_ids or status")
  else if !isValidStatusCode new_status then
    .error (str "Invalid status")
  else
    let touched := db.map (fun it =>
      if item_ids.contains it.id then
        (bulk_update_status_item it new_status notes changed_by now).fst
      else it)
    let hists := (db.filter (fun it => item_ids.contains it.id)).map
      (fun it => (bulk_update_status_item it new_status notes changed_by now).snd)
    .ok (touched, hists)

/-- One `PrintJob` row (models.py lines 192-210). -/
structure PrintJob where
  id : Nat
  item_id : Nat
  status : Str
  error_message : Str
  printed_at : Option Nat
deriving DecidableEq, Repr

/-- `update_print_job_status` (views.py lines 1581-1604): only the two
target values "printed" and "failed" are accepted; the job's current status
is not inspected before overwriting it. -/
def update_print_job_status (job : PrintJob) (new_status err : Str) (now : Nat) :
    Except Str PrintJob :=
  if new_status != str "printed" && new_status != str "failed" then
    .error (str "Status must be \"printed\" or \"failed\"")
  else
    let job := { job with status := new_status }
    let job :=
      if new_status == str "printed" then { job with printed_at := some now }
      else if new_status == str "failed" then { job with error_message := err }
      else job
    .ok job

/-- SQLite `CAST(text AS INTEGER)` (the dev/test database backend): skip
leading whitespace, take the longest integer sign-and-digit view; anything
unparsable yields 0.  This is the semantics of
`Cast('pallet_id', IntegerField())` in `_next_pallet_id`. -/
def sqliteCastInt (s : Str) : Int :=
  let t := s.dropWhile isPySpace
  match t with
  | '-' :: ds =>
    let digs := ds.takeWhile Char.isDigit
    if digs.isEmpty then 0 else -(digitsToNat 0 digs : Int)
  | '+' :: ds =>
    let digs := ds.takeWhile Char.isDigit
    if digs.isEmpty then 0 else (digitsToNat 0 digs : Int)
  | ds =>
    let digs := ds.takeWhile Char.isDigit
    if digs.isEmpty then 0 else (digitsToNat 0 digs : Int)

/-- The `Max` aggregate over the integer casts of all pallet ids
(`None` on an empty table). -/
def maxCast (db : List Item) : Option Int :=
  match db.map (fun it => sqliteCastInt it.pallet_id) with
  | [] => none
  | x :: xs => some (xs.foldl max x)

/-- `_next_pallet_id` (views.py lines 725-734): `max(casts) + 1` as a
string, falling back to "1" when there are no rows or the aggregate is
falsy (0, the cast of garbage text). -/
def next_pallet_id (db : List Item) : Str :=
  match maxCast db with
  | none => str "1"
  | some m => if m = 0 then str "1" else intToChars (m + 1)

/-- The raw POST fields of the `add_shipment` form.  `count_exceptions` is
included because the intake form and the repository's own test suite send
it; the view body never reads it. -/
structure RawShipment where
  manufacturer : Str
  project_number : Str
  num_boxes : Str
  items_per_box : Str
  location : Str
  location_custom : Str
  damaged : Str
  description : Str
  damaged_boxes : Str
  tags : Str
  count_exceptions : Str
deriving Repr

/-- The effective receiving location: the custom field replaces the choice
"other" (views.py lines 754-756). -/
def shipLocation (raw : RawShipment) : Str :=
  let l := trimChars raw.location
  if l = str "other" then trimChars raw.location_custom else l

/-- `num_boxes_int` after the try/except (0 when parsing failed). -/
def numBoxesInt (raw : RawShipment) : Int :=
  match pyInt raw.num_boxes with
  | some n => n
  | none => 0

/-- Errors contributed by the `num_boxes` field (views.py lines 783-789). -/
def numBoxesErrs (raw : RawShipment) : List Str :=
  match pyInt raw.num_boxes with
  | some n => if n < 1 then [str "Number of boxes must be at least 1."] else []
  | none => [str "Number of boxes must be a valid number."]

/-- `items_per_box_int` after the try/except (0 when parsing failed). -/
def itemsPerBoxInt (raw : RawShipment) : Int :=
  match pyInt raw.items_per_box with
  | some n => n
  | none => 0

/-- Errors contributed by the `items_per_box` field (views.py lines 791-797). -/
def itemsPerBoxErrs (raw : RawShipment) : List Str :=
  match pyInt raw.items_per_box with
  | some n => if n < 1 then [str "Items per box must be at least 1."] else []
  | none => [str "Items per box must be a valid number."]

/-- The stripped, non-empty tokens of the comma-separated damaged-box list. -/
def damagedTokens (raw : RawShipment) : List Str :=
  ((splitComma (trimChars raw.damaged_boxes)).map trimChars).filter (fun t => !t.isEmpty)

/-- One step of the damaged-box loop (views.py lines 802-812): accumulate
the box set and the error list. -/
def damagedBoxStep (nb : Int) (acc : List Int × List Str) (tok : Str) : List Int × List Str :=
  match pyInt tok with
  | some box =>
    if nb ≠ 0 ∧ (box < 1 ∨ box > nb) then
      (acc.1, acc.2 ++ [str "Damaged box #" ++ intToChars box ++
        str " is outside the range 1-" ++ intToChars nb ++ str "."])
    else (acc.1 ++ [box], acc.2)
  | none => (acc.1, acc.2 ++ [str "Invalid damaged box number: \"" ++ tok ++ str "\"."])

/-- The damaged-box set and its parse errors. -/
def damagedBoxParse (raw : RawShipment) : List Int × List Str :=
  (damagedTokens raw).foldl (damagedBoxStep (numBoxesInt raw)) ([], [])

/-- The aggregated validation error list (views.py lines 775-812), in
source order: required fields, numeric fields, then damaged-box tokens.
All rules run even when earlier ones fail. -/
def shipErrors (raw : RawShipment) : List Str :=
  (if trimChars raw.manufacturer = [] then [str "Manufacturer / Supplier is required."] else []) ++
  (if shipLocation raw = [] then [str "Receiving Location is required."] else []) ++
  numBoxesErrs raw ++ itemsPerBoxErrs raw ++ (damagedBoxParse raw).2

/-- The validated shipment plan fed to the creation loop. -/
structure Plan where
  manufacturer : Str
  project_number : Str
  location : Str
  description : Str
  tags : Str
  num_boxes : Nat
  items_per_box : Int
  damagedGlobal : Bool
  damaged_box_set : List Int
deriving Repr

/-- Build the plan from validated raw fields. -/
def planOf (raw : RawShipment) : Plan :=
  { manufacturer := trimChars raw.manufacturer
    project_number := trimChars raw.project_number
    location := shipLocation raw
    description := trimChars raw.description
    tags := trimChars raw.tags
    num_boxes := (numBoxesInt raw).toNat
    items_per_box := itemsPerBoxInt raw
    damagedGlobal := raw.damaged = str "yes"
    damaged_box_set := (damagedBoxParse raw).1 }

/-- Per-box damage flag (views.py lines 829-834): an explicit damaged-box
list wins entirely over the global flag. -/
def boxDamaged (plan : Plan) (box : Nat) : Bool :=
  if !plan.damaged_box_set.isEmpty then plan.damaged_box_set.contains (box : Int)
  else plan.damagedGlobal

/-- Per-box content count: always the global `items_per_box` (views.py line
828; the view reads no per-box count-exception field). -/
def boxContent (plan : Plan) (box : Nat) : Int := plan.items_per_box

/-- The barcode payload string `MFR=.. | PALLET=.. | BOX=..` (views.py line
836, api_views.py line 58). -/
def payloadFor (m p : Str) (box : Nat) : Str :=
  str "MFR=" ++ m ++ str " | PALLET=" ++ p ++ str " | BOX=" ++ natToChars box

/-- `_get_short_qr_url` (views.py lines 413-415). -/
def shortQrUrl (id : Nat) : Str := str "/qr/" ++ natToChars id ++ str "/code.png"

/-- Row key equality used by the upsert lookup
`filter(manufacturer=, pallet_id=, box_id=)`. -/
def keyMatch (m p : Str) (box : Nat) (it : Item) : Bool :=
  it.manufacturer == m && it.pallet_id == p && it.box_id == box

/-- The update branch of the upsert (views.py lines 848-857): overwrite the
shipment-sourced fields and the scan-identifier fields; status, checkout
attribution and the archived flag are not touched. -/
def updateExisting (plan : Plan) (p : Str) (box : Nat) (it : Item) : Item :=
  { it with
    content := boxContent plan box
    damaged := boxDamaged plan box
    location := plan.location
    description := plan.description
    project_number := plan.project_number
    tags := plan.tags
    barcode_payload := payloadFor plan.manufacturer p box
    qr_url := shortQrUrl it.id }

/-- The create branch of the upsert (views.py lines 860-876): a fresh row
with status `checked_in` and empty checkout/archive state. -/
def newItemFor (plan : Plan) (p : Str) (box : Nat) (id : Nat) : Item :=
  { id := id
    manufacturer := plan.manufacturer
    pallet_id := p
    box_id := box
    project_number := plan.project_number
    content := boxContent plan box
    damaged := boxDamaged plan box
    location := plan.location
    description := plan.description
    tags := plan.tags
    status := str "checked_in"
    barcode_payload := payloadFor plan.manufacturer p box
    qr_url := shortQrUrl id
    checked_out_by := []
    checked_out_at := none
    archived := false
    archived_at := none }

/-- The next auto-increment primary key. -/
def nextItemId (db : List Item) : Nat := (db.map Item.id).foldr max 0 + 1

/-- Replace the first row satisfying `q` by its image under `f`
(the ORM's `.first()` followed by field assignment and `.save()`). -/
def replaceFirst (q : Item → Bool) (f : Item → Item) : List Item → List Item
  | [] => []
  | it :: rest => if q it then f it :: rest else it :: replaceFirst q f rest

/-- One iteration of the creation loop (views.py lines 841-894): update the
existing row for (manufacturer, pallet, box) if there is one, otherwise
append a new row. -/
def upsertBox (plan : Plan) (p : Str) (box : Nat) (db : List Item) : List Item :=
  if (db.find? (keyMatch plan.manufacturer p box)).isSome then
    replaceFirst (keyMatch plan.manufacturer p box) (updateExisting plan p box) db
  else
    db ++ [newItemFor plan p box (nextItemId db)]

/-- Box numbers `1 .. n` (Python `range(1, num_boxes_int + 1)`). -/
def boxRange (n : Nat) : List Nat := (List.range n).map (· + 1)

/-- The whole creation loop of `add_shipment`, parameterised by the pallet
id (views.py lines 827-894).  The creation-side audit rows (StatusHistory
and ChangeLog of a fresh item) and photo attachments are not modelled. -/
def applyShipment (plan : Plan) (p : Str) (db : List Item) : List Item :=
  (boxRange plan.num_boxes).foldl (fun db box => upsertBox plan p box db) db

/-- The POST branch of `add_shipment` (views.py lines 746-916): allocate
the pallet id, validate, and either return the full error list (no item is
created) or run the creation loop. -/
def add_shipment (raw : RawShipment) (db : List Item) : Except (List Str) (List Item) :=
  let pallet := next_pallet_id db
  let errs := shipErrors raw
  if !errs.isEmpty then .error errs
  else .ok (applyShipment (planOf raw) pallet db)

/-- The update branch of `create_item_from_excel` (api_views.py lines
75-83): overwrite content, damaged, location, description and the scan
identifier fields; nothing else. -/
def updateItemFromExcel (it : Item) (content : Int) (damaged : Bool)
    (location description bp qr : Str) : Item :=
  { it with
    content := content
    damaged := damaged
    location := location
    description := description
    barcode_payload := bp
    qr_url := qr }

/-- "Yes"/"No" rendering of the damaged flag used in audit values. -/
def boolYes (b : Bool) : Str := if b then str "Yes" else str "No"

/-- The JSON patch accepted by `edit_item`.  `content = some none` stands
for a present but non-integer-coercible value. -/
structure EditPatch where
  content : Option (Option Int)
  damaged : Option Bool
  location : Option Str
  description : Option Str
  project_number : Option Str
  manufacturer : Option Str
  tags : Option Str
  status : Option Str
  notes : Str
  changed_by : Str
deriving Repr

/-- The stringified field snapshot `old_vals`/`new_vals` of `edit_item`
(views.py lines 1012-1020 and 1078-1086), in source dict order. -/
def fieldSnapshot (it : Item) : List (Str × Str) :=
  [ (str "content", intToChars it.content),
    (str "damaged", boolYes it.damaged),
    (str "location", it.location),
    (str "description", it.description),
    (str "project_number", it.project_number),
    (str "manufacturer", it.manufacturer),
    (str "tags", it.tags) ]

/-- The ChangeLog rows `edit_item` writes: one per field whose stringified
value changed (views.py lines 1087-1097). -/
def editChanges (old new : Item) (changed_by : Str) : List ChangeEntry :=
  ((fieldSnapshot old).zip (fieldSnapshot new)).filterMap (fun kv =>
    if kv.1.2 ≠ kv.2.2 then
      some ⟨old.id, str "field_edit", kv.1.1, kv.1.2, kv.2.2, changed_by⟩
    else none)

/-- The `if 'content' in data:` block of `edit_item` (the error case is
handled by the caller). -/
def patchContent (d : EditPatch) (it : Item) : Item :=
  match d.content with
  | some (some n) => { it with content := n }
  | _ => it

/-- The `if 'damaged' in data:` block of `edit_item`. -/
def patchDamaged (d : EditPatch) (it : Item) : Item :=
  match d.damaged with
  | some b => { it with damaged := b }
  | none => it

/-- The `if 'location' in data:` block of `edit_item`. -/
def patchLocation (d : EditPatch) (it : Item) : Item :=
  match d.location with
  | some l => { it with location := l }
  | none => it

/-- The `if 'description' in data:` block of `edit_item`. -/
def patchDescription (d : EditPatch) (it : Item) : Item :=
  match d.description with
  | some s => { it with description := s }
  | none => it

/-- The `if 'project_number' in data:` block of `edit_item`. -/
def patchProject (d : EditPatch) (it : Item) : Item :=
  match d.project_number with
  | some s => { it with project_number := s }
  | none => it

/-- The `if 'manufacturer' in data:` block of `edit_item` (views.py lines
1035-1043): a blank value is ignored, and the scan identifier is
regenerated only when the manufacturer actually changed (compared against
the pre-call value `old_vals['manufacturer']`). -/
def patchManufacturer (old_mfr : Str) (d : EditPatch) (it : Item) : Item :=
  match d.manufacturer with
  | some m =>
    let new_mfr := trimChars m
    if !new_mfr.isEmpty then
      let it := { it with manufacturer := new_mfr }
      if old_mfr ≠ new_mfr then
        { it with barcode_payload := payloadFor new_mfr it.pallet_id it.box_id
                  qr_url := shortQrUrl it.id }
      else it
    else it
  | none => it

/-- The `if 'tags' in data:` block of `edit_item`. -/
def patchTags (d : EditPatch) (it : Item) : Item :=
  match d.tags with
  | some t => { it with tags := t }
  | none => it

/-- All field-patch blocks of `edit_item`, in source order. -/
def editFieldsApply (item : Item) (d : EditPatch) : Item :=
  patchTags d (patchManufacturer item.manufacturer d
    (patchProject d (patchDescription d (patchLocation d
      (patchDamaged d (patchContent d item))))))

/-- The status block of `edit_item` (views.py lines 1047-1062): only a
known status code that differs from the current one is applied; the
returned flag is `status_changed`. -/
def editStatusApply (d : EditPatch) (now : Nat) (it : Item) : Item × Bool :=
  match d.status with
  | some new_status =>
    let old_status := it.status
    if isValidStatusCode new_status ∧ new_status ≠ old_status then
      let j := { it with status := new_status }
      let j :=
        if new_status == str "checked_out" then
          { j with checked_out_by := d.changed_by, checked_out_at := some now }
        else if old_status == str "checked_out" then
          { j with checked_out_by := [], checked_out_at := none }
        else j
      (j, true)
    else (it, false)
  | none => (it, false)

/-- `edit_item` (views.py lines 1003-1112): apply the sparse patch field by
field, regenerate the scan identifier when the manufacturer changed, route
a valid changed status through the transition logic, and log the diffs.
An unknown or unchanged `status` value is silently skipped. -/
def edit_item (item : Item) (d : EditPatch) (now : Nat) :
    Except Str (Item × Option HistEntry × List ChangeEntry) :=
  if d.content = some none then .error (str "Contents must be a whole number.")
  else
    let it := editFieldsApply item d
    let stepped := editStatusApply d now it
    let hist : Option HistEntry :=
      if stepped.2 then
        some ⟨item.id, it.status, stepped.1.status, d.notes, d.changed_by⟩
      else none
    .ok (stepped.1, hist, editChanges item stepped.1 d.changed_by)

/-- One `DeletionLog` row (models.py lines 283-300): no foreign key, so the
record survives the cascade delete. -/
structure DeletionLog where
  manufacturer : Str
  pallet_id : Str
  item_count : Nat
  item_ids : List Nat
  deleted_by : Str
deriving DecidableEq, Repr

/-- Modelled from the spec: the `delete_pallet` view is routed at
`api/delete-pallet/` (urls.py line 52) but its body is not among the
provided sources.  Per spec §3/§4/§7 it snapshots (manufacturer, pallet,
item count, item id list, actor) into a `DeletionLog` row and then cascade
deletes every matching item, all-or-nothing: if the snapshot write fails
(`snapshotOk = false`), the delete must not proceed. -/
def delete_pallet (snapshotOk : Bool) (db : List Item) (logs : List DeletionLog)
    (m p actor : Str) : List Item × List DeletionLog :=
  if !snapshotOk then (db, logs)
  else
    let matching := db.filter (fun it => it.manufacturer == m && it.pallet_id == p)
    let entry : DeletionLog := ⟨m, p, matching.length, matching.map Item.id, actor⟩
    (db.filter (fun it => !(it.manufacturer == m && it.pallet_id == p)), logs ++ [entry])

/-! ### Shared concrete rows for witnesses and counterexamples -/

/-- A concrete inventory row used by witnesses. -/
def itemA : Item :=
  { id := 1
    manufacturer := str "Acme Corp"
    pallet_id := str "1"
    box_id := 1
    project_number := str "PRJ-001"
    content := 10
    damaged := false
    location := str "York, PA"
    description := []
    tags := []
    status := str "checked_in"
    barcode_payload := payloadFor (str "Acme Corp") (str "1") 1
    qr_url := shortQrUrl 1
    checked_out_by := []
    checked_out_at := none
    archived := false
    archived_at := none }

/-- A second concrete row, on pallet "5" and checked out. -/
def itemB : Item :=
  { itemA with
    id := 2
    pallet_id := str "5"
    box_id := 2
    status := str "checked_out"
    checked_out_by := str "alice"
    checked_out_at := some 3 }

/-! ### Helper lemmas -/

/-- Folding `max` over a list of zeros from zero stays zero. -/
theorem foldl_max_zero (l : List Int) (h : ∀ x ∈ l, x = 0) :
    l.foldl max (0 : Int) = 0 := by
  induction l with
  | nil => rfl
  | cons x xs ih =>
    have hx : x = 0 := h x (List.mem_cons_self x xs)
    simp only [List.foldl_cons, hx, max_self]
    exact ih (fun y hy => h y (List.mem_cons_of_mem x hy))

/-- A filter and its negation partition the length of a list. -/
theorem length_filter_not_add (q : Item → Bool) (l : List Item) :
    (l.filter q).length + (l.filter (fun x => !(q x))).length = l.length := by
  induction l with
  | nil => rfl
  | cons x xs ih =>
    by_cases hx : q x
    · simp only [List.filter_cons, hx, if_true, Bool.not_true, if_false,
        Bool.false_eq_true, List.length_cons, List.length]
      omega
    · simp only [List.filter_cons, hx, if_false, Bool.not_false, if_true,
        Bool.false_eq_true, List.length_cons, List.length]
      omega

/-! ### C10 — pallet id allocation -/

/-- C10: for a non-empty table, `_next_pallet_id` returns the string form
of (numeric maximum of the existing pallet ids) + 1, where unparsable ids
contribute 0 to the aggregate; on an empty table it returns "1"; and when
every pallet id is numeric garbage (all casts 0) it falls back to "1"
rather than failing. -/
theorem next_pallet_id_spec :
    (∀ db : List Item, db ≠ [] →
      next_pallet_id db = intToChars ((maxCast db).getD 0 + 1)) ∧
    next_pallet_id [] = str "1" ∧
    (∀ db : List Item, (∀ it ∈ db, sqliteCastInt it.pallet_id = 0) →
      next_pallet_id db = str "1") := by
  refine ⟨?_, rfl, ?_⟩
  · intro db hdb
    match db with
    | [] => exact absurd rfl hdb
    | it :: rest =>
      simp only [next_pallet_id, maxCast, List.map_cons, Option.getD_some]
      by_cases hM : (rest.map (fun it => sqliteCastInt it.pallet_id)).foldl max
          (sqliteCastInt it.pallet_id) = 0
      · rw [if_pos hM, hM]
        decide
      · rw [if_neg hM]
  · intro db h
    match db with
    | [] => rfl
    | it :: rest =>
      have hhd : sqliteCastInt it.pallet_id = 0 :=
        h it (List.mem_cons_self it rest)
      have htl : (rest.map (fun it => sqliteCastInt it.pallet_id)).foldl max
          (sqliteCastInt it.pallet_id) = 0 := by
        rw [hhd]
        refine foldl_max_zero _ ?_
        intro x hx
        obtain ⟨y, hy, rfl⟩ := List.mem_map.mp hx
        exact h y (List.mem_cons_of_mem it hy)
      simp only [next_pallet_id, maxCast, List.map_cons]
      rw [if_pos htl]

/-- Witness for C10: a table whose greatest pallet id is 5 yields "6", and
a table whose only pallet id is the garbage string "garbage" yields "1". -/
theorem next_pallet_id_spec_witness :
    ([itemA, itemB] : List Item) ≠ [] ∧
    next_pallet_id [itemA, itemB] = str "6" ∧
    next_pallet_id [{ itemA with pallet_id := str "garbage" }] = str "1" := by
  refine ⟨by decide, ?_, ?_⟩
  · have h := next_pallet_id_spec.1 [itemA, itemB] (by decide)
    rw [h]
    decide
  · exact next_pallet_id_spec.2.2 [{ itemA with pallet_id := str "garbage" }] (by decide)

/-! ### C1 — pallet deletion with DeletionLog snapshot -/

/-- C1: for a pallet with at least one matching item, `delete_pallet` with a
successful snapshot removes every item matching (manufacturer, pallet id),
appends exactly one `DeletionLog` row whose `item_count` equals the number
of items deleted, and that row is a member of the resulting log table; and
when the snapshot write fails no item is deleted (all-or-nothing).  The
view itself is absent from the provided sources; `delete_pallet` here is
modelled from the spec. -/
theorem delete_pallet_spec
    (db : List Item) (logs : List DeletionLog) (m p actor : Str)
    (hmatch : ∃ it ∈ db, (it.manufacturer == m && it.pallet_id == p) = true) :
    (∀ it ∈ (delete_pallet true db logs m p actor).1,
      (it.manufacturer == m && it.pallet_id == p) = false) ∧
    (delete_pallet true db logs m p actor).2 =
      logs ++ [⟨m, p,
        (db.filter (fun it => it.manufacturer == m && it.pallet_id == p)).length,
        (db.filter (fun it => it.manufacturer == m && it.pallet_id == p)).map Item.id,
        actor⟩] ∧
    (delete_pallet true db logs m p actor).2.length = logs.length + 1 ∧
    (⟨m, p,
        (db.filter (fun it => it.manufacturer == m && it.pallet_id == p)).length,
        (db.filter (fun it => it.manufacturer == m && it.pallet_id == p)).map Item.id,
        actor⟩ : DeletionLog) ∈ (delete_pallet true db logs m p actor).2 ∧
    (db.filter (fun it => it.manufacturer == m && it.pallet_id == p)).length =
      db.length - (delete_pallet true db logs m p actor).1.length ∧
    0 < (db.filter (fun it => it.manufacturer == m && it.pallet_id == p)).length ∧
    delete_pallet false db logs m p actor = (db, logs) := by
  have hpart := length_filter_not_add
    (fun it => it.manufacturer == m && it.pallet_id == p) db
  refine ⟨?_, ?_, ?_, ?_, ?_, ?_, ?_⟩
  · intro it hit
    simp only [delete_pallet, Bool.not_true, if_false, Bool.false_eq_true] at hit
    have h2 := List.of_mem_filter hit
    rwa [Bool.not_eq_true'] at h2
  · rfl
  · simp [delete_pallet]
  · simp [delete_pallet]
  · simp only [delete_pallet, Bool.not_true, if_false, Bool.false_eq_true]
    omega
  · obtain ⟨it, hit, hq⟩ := hmatch
    have : it ∈ db.filter (fun it => it.manufacturer == m && it.pallet_id == p) :=
      List.mem_filter.mpr ⟨hit, hq⟩
    exact List.length_pos.mpr (fun he => by simp [he] at this)
  · rfl

/-- Witness for C1 at a concrete table: deleting pallet "1" of "Acme Corp"
from `[itemA, itemB]` removes `itemA`, keeps `itemB`, and leaves one log
row of count 1. -/
theorem delete_pallet_spec_witness :
    (∃ it ∈ ([itemA, itemB] : List Item),
      (it.manufacturer == str "Acme Corp" && it.pallet_id == str "1") = true) ∧
    (delete_pallet true [itemA, itemB] [] (str "Acme Corp") (str "1") (str "bob")).2.length
      = 0 + 1 := by
  have h : ∃ it ∈ ([itemA, itemB] : List Item),
      (it.manufacturer == str "Acme Corp" && it.pallet_id == str "1") = true :=
    ⟨itemA, by decide, by decide⟩
  refine ⟨h, ?_⟩
  exact (delete_pallet_spec [itemA, itemB] [] (str "Acme Corp") (str "1")
    (str "bob") h).2.2.1

/-! ### C8 — print-job status transitions -/

/-- A print job already in the terminal state "printed". -/
def jobPrinted : PrintJob :=
  { id := 1, item_id := 1, status := str "printed", error_message := [], printed_at := some 0 }

/-- C8 counterexample: `update_print_job_status` does not treat "printed"
as terminal — re-sending "failed" to a job whose status is already
"printed" overwrites the status, so the claim that a terminal job "never
has its status changed by a subsequent updatePrintJobStatus call" is false
on the code. -/
theorem update_print_job_status_overwrites_terminal :
    jobPrinted.status = str "printed" ∧
    update_print_job_status jobPrinted (str "failed") [] 5 =
      .ok { jobPrinted with status := str "failed" } ∧
    str "failed" ≠ str "printed" := by
  refine ⟨rfl, ?_, by decide⟩
  rfl

/-- C8 amended: the endpoint validates only the requested value — "printed"
sets the status and stamps `printed_at`, "failed" sets the status and the
error text, anything else is rejected with the job unchanged; the current
status is never inspected, so pending→printed and pending→failed occur but
terminal states are not protected (re-sending the same terminal status
leaves the status value unchanged, as an overwrite with the same value). -/
theorem update_print_job_status_spec (job : PrintJob) (s e : Str) (now : Nat) :
    (s = str "printed" →
      update_print_job_status job s e now =
        .ok { job with status := s, printed_at := some now }) ∧
    (s = str "failed" →
      update_print_job_status job s e now =
        .ok { job with status := s, error_message := e }) ∧
    (s ≠ str "printed" → s ≠ str "failed" →
      update_print_job_status job s e now =
        .error (str "Status must be \"printed\" or \"failed\"")) := by
  refine ⟨?_, ?_, ?_⟩
  · rintro rfl
    rfl
  · rintro rfl
    rfl
  · intro h1 h2
    have hc : (s != str "printed" && s != str "failed") = true := by
      simp [bne_iff_ne, h1, h2]
    simp [update_print_job_status, hc]

/-- Witness for C8's amended theorem: a pending job is moved to "printed",
and an unknown value "done" is rejected. -/
theorem update_print_job_status_spec_witness :
    update_print_job_status { jobPrinted with status := str "pending", printed_at := none }
        (str "printed") [] 7 =
      .ok { jobPrinted with status := str "printed", printed_at := some 7 } ∧
    update_print_job_status jobPrinted (str "done") [] 7 =
      .error (str "Status must be \"printed\" or \"failed\"") := by
  constructor
  · exact (update_print_job_status_spec
      { jobPrinted with status := str "pending", printed_at := none }
      (str "printed") [] 7).1 rfl
  · exact (update_print_job_status_spec jobPrinted (str "done") [] 7).2.2
      (by decide) (by decide)

/-! ### C7 — status validation -/

/-- C7 counterexample: the claim says a status update fails exactly when
the supplied value is not one of the five internal codes, yet
`update_status` rejects the internal code "checked_in" (it only accepts
the five display labels), even though "checked_in" is one of the five
known status values of `STATUS_CHOICES`. -/
theorem update_status_rejects_internal_code :
    update_status itemA (str "checked_in") [] [] 0 = .error (str "Invalid status") ∧
    isValidStatusCode (str "checked_in") = true := by
  exact ⟨rfl, rfl⟩

/-- C7 amended: `update_status` fails with "Invalid status" exactly when
the supplied value is not one of the five display labels (so the five
internal codes are rejected there); `bulk_update_status` fails with
"Invalid status" exactly when the value is not one of the five internal
codes; `edit_item` never fails because of the status value — a patch whose
only problem is an unknown status still returns success — and on any
validation failure no item is modified (the failing endpoints return an
error without an updated row). -/
theorem status_validation_spec :
    (∀ s : Str, (assocGet status_mapping s).isSome = true ↔
      s ∈ [str "Checked In", str "Checked Out", str "Tested",
           str "Will Be Reused", str "Recycling"]) ∧
    (∀ s : Str, isValidStatusCode s = true ↔
      s ∈ [str "checked_in", str "checked_out", str "tested",
           str "will_be_reused", str "recycling"]) ∧
    (∀ (item : Item) (s notes cb : Str) (now : Nat),
      assocGet status_mapping s = none →
      update_status item s notes cb now = .error (str "Invalid status")) ∧
    (∀ (db : List Item) (ids : List Nat) (s notes cb : Str) (now : Nat),
      ids ≠ [] → s ≠ [] → isValidStatusCode s = false →
      bulk_update_status db ids s notes cb now = .error (str "Invalid status")) ∧
    (∀ (item : Item) (d : EditPatch) (now : Nat),
      d.content ≠ some none → ∃ r, edit_item item d now = .ok r) ∧
    (∀ (d : EditPatch) (now : Nat) (it : Item) (s : Str),
      d.status = some s → isValidStatusCode s = false →
      editStatusApply d now it = (it, false)) := by
  refine ⟨?_, ?_, ?_, ?_, ?_, ?_⟩
  · intro s
    by_cases h1 : s = str "Checked In"
    · subst h1; decide
    by_cases h2 : s = str "Checked Out"
    · subst h2; decide
    by_cases h3 : s = str "Tested"
    · subst h3; decide
    by_cases h4 : s = str "Will Be Reused"
    · subst h4; decide
    by_cases h5 : s = str "Recycling"
    · subst h5; decide
    have b1 : (str "Checked In" == s) = false :=
      beq_eq_false_iff_ne.mpr (fun h => h1 h.symm)
    have b2 : (str "Checked Out" == s) = false :=
      beq_eq_false_iff_ne.mpr (fun h => h2 h.symm)
    have b3 : (str "Tested" == s) = false :=
      beq_eq_false_iff_ne.mpr (fun h => h3 h.symm)
    have b4 : (str "Will Be Reused" == s) = false :=
      beq_eq_false_iff_ne.mpr (fun h => h4 h.symm)
    have b5 : (str "Recycling" == s) = false :=
      beq_eq_false_iff_ne.mpr (fun h => h5 h.symm)
    simp [assocGet, status_mapping, List.find?, b1, b2, b3, b4, b5,
      h1, h2, h3, h4, h5]
  · intro s
    by_cases h1 : s = str "checked_in"
    · subst h1; decide
    by_cases h2 : s = str "checked_out"
    · subst h2; decide
    by_cases h3 : s = str "tested"
    · subst h3; decide
    by_cases h4 : s = str "will_be_reused"
    · subst h4; decide
    by_cases h5 : s = str "recycling"
    · subst h5; decide
    have b1 : (str "checked_in" == s) = false :=
      beq_eq_false_iff_ne.mpr (fun h => h1 h.symm)
    have b2 : (str "checked_out" == s) = false :=
      beq_eq_false_iff_ne.mpr (fun h => h2 h.symm)
    have b3 : (str "tested" == s) = false :=
      beq_eq_false_iff_ne.mpr (fun h => h3 h.symm)
    have b4 : (str "will_be_reused" == s) = false :=
      beq_eq_false_iff_ne.mpr (fun h => h4 h.symm)
    have b5 : (str "recycling" == s) = false :=
      beq_eq_false_iff_ne.mpr (fun h => h5 h.symm)
    simp [isValidStatusCode, statusChoices, b1, b2, b3, b4, b5,
      h1, h2, h3, h4, h5]
  · intro item s notes cb now h
    simp [update_status, h]
  · intro db ids s notes cb now hids hs hv
    have h1 : ids.isEmpty = false := by
      cases ids with
      | nil => exact absurd rfl hids
      | cons a l => rfl
    have h2 : s.isEmpty = false := by
      cases s with
      | nil => exact absurd rfl hs
      | cons a l => rfl
    simp [bulk_update_status, h1, h2, hv]
  · intro item d now hc
    exact ⟨_, by rw [edit_item, if_neg hc]⟩
  · intro d now it s hs hv
    simp [editStatusApply, hs, hv]

/-- Witness for C7's amended theorem: "Checked Out" is a valid label,
"checked_in" is a valid code, an unknown label is rejected by
`update_status`, an unknown code is rejected by `bulk_update_status`, and
a patch carrying only the bogus status "broken" still succeeds through
`edit_item` with the status ignored. -/
theorem status_validation_spec_witness :
    (assocGet status_mapping (str "Checked Out")).isSome = true ∧
    isValidStatusCode (str "checked_in") = true ∧
    update_status itemA (str "bogus") [] [] 0 = .error (str "Invalid status") ∧
    bulk_update_status [itemA] [1] (str "bogus") [] [] 0 = .error (str "Invalid status") ∧
    (∃ r, edit_item itemA
      { content := none, damaged := none, location := none, description := none,
        project_number := none, manufacturer := none, tags := none,
        status := some (str "broken"), notes := [], changed_by := [] } 0 = .ok r) := by
  refine ⟨?_, ?_, ?_, ?_, ?_⟩
  · exact (status_validation_spec.1 (str "Checked Out")).mpr (by decide)
  · exact (status_validation_spec.2.1 (str "checked_in")).mpr (by decide)
  · exact status_validation_spec.2.2.1 itemA (str "bogus") [] [] 0 (by decide)
  · exact status_validation_spec.2.2.2.1 [itemA] [1] (str "bogus") [] [] 0
      (by decide) (by decide) (by decide)
  · exact status_validation_spec.2.2.2.2.1 itemA _ 0 (by decide)

/-! ### Lifecycle-frame infrastructure (C3, C4) -/

/-- `f` never touches status, checkout attribution, archive state or the
primary key. -/
def preservesLifecycle (f : Item → Item) : Prop :=
  ∀ it : Item, (f it).status = it.status ∧
    (f it).checked_out_by = it.checked_out_by ∧
    (f it).checked_out_at = it.checked_out_at ∧
    (f it).archived = it.archived ∧
    (f it).archived_at = it.archived_at ∧
    (f it).id = it.id

theorem preservesLifecycle_comp {f g : Item → Item}
    (hf : preservesLifecycle f) (hg : preservesLifecycle g) :
    preservesLifecycle (fun it => f (g it)) := by
  intro it
  obtain ⟨a1, a2, a3, a4, a5, a6⟩ := hf (g it)
  obtain ⟨b1, b2, b3, b4, b5, b6⟩ := hg it
  exact ⟨a1.trans b1, a2.trans b2, a3.trans b3, a4.trans b4, a5.trans b5, a6.trans b6⟩

theorem patchContent_pres (d : EditPatch) : preservesLifecycle (patchContent d) := by
  intro it
  cases hd : d.content with
  | none => simp [patchContent, hd]
  | some c => cases c with
    | none => simp [patchContent, hd]
    | some n => simp [patchContent, hd]

theorem patchDamaged_pres (d : EditPatch) : preservesLifecycle (patchDamaged d) := by
  intro it
  cases hd : d.damaged with
  | none => simp [patchDamaged, hd]
  | some b => simp [patchDamaged, hd]

theorem patchLocation_pres (d : EditPatch) : preservesLifecycle (patchLocation d) := by
  intro it
  cases hd : d.location with
  | none => simp [patchLocation, hd]
  | some l => simp [patchLocation, hd]

theorem patchDescription_pres (d : EditPatch) : preservesLifecycle (patchDescription d) := by
  intro it
  cases hd : d.description with
  | none => simp [patchDescription, hd]
  | some s => simp [patchDescription, hd]

theorem patchProject_pres (d : EditPatch) : preservesLifecycle (patchProject d) := by
  intro it
  cases hd : d.project_number with
  | none => simp [patchProject, hd]
  | some s => simp [patchProject, hd]

theorem patchManufacturer_pres (m : Str) (d : EditPatch) :
    preservesLifecycle (patchManufacturer m d) := by
  intro it
  cases hd : d.manufacturer with
  | none => simp [patchManufacturer, hd]
  | some s =>
    simp only [patchManufacturer, hd]
    split_ifs <;> simp

theorem patchTags_pres (d : EditPatch) : preservesLifecycle (patchTags d) := by
  intro it
  cases hd : d.tags with
  | none => simp [patchTags, hd]
  | some t => simp [patchTags, hd]

/-- The field-patch phase of `edit_item` never touches the lifecycle
fields. -/
theorem editFieldsApply_pres (item : Item) (d : EditPatch) :
    (editFieldsApply item d).status = item.status ∧
    (editFieldsApply item d).checked_out_by = item.checked_out_by ∧
    (editFieldsApply item d).checked_out_at = item.checked_out_at ∧
    (editFieldsApply item d).archived = item.archived ∧
    (editFieldsApply item d).archived_at = item.archived_at ∧
    (editFieldsApply item d).id = item.id := by
  have h := preservesLifecycle_comp (patchTags_pres d)
    (preservesLifecycle_comp (patchManufacturer_pres item.manufacturer d)
      (preservesLifecycle_comp (patchProject_pres d)
        (preservesLifecycle_comp (patchDescription_pres d)
          (preservesLifecycle_comp (patchLocation_pres d)
            (preservesLifecycle_comp (patchDamaged_pres d) (patchContent_pres d))))))
  exact h item

/-! ### C3 — shipment upsert frame -/

/-- C3: when the shipment upsert finds an existing row for (manufacturer,
pallet, box), it rewrites only content, damaged, location, description,
project number, tags and the two scan-identifier fields
(`barcode_payload`, `qr_url`): status, checkout attribution, the archived
flag and archived_at — as well as the identifying key and the primary
key — are left exactly unchanged.  The same holds for the Excel API's
update branch (`create_item_from_excel`). -/
theorem shipment_upsert_frame :
    (∀ (plan : Plan) (p : Str) (box : Nat) (it : Item),
      (updateExisting plan p box it).status = it.status ∧
      (updateExisting plan p box it).checked_out_by = it.checked_out_by ∧
      (updateExisting plan p box it).checked_out_at = it.checked_out_at ∧
      (updateExisting plan p box it).archived = it.archived ∧
      (updateExisting plan p box it).archived_at = it.archived_at ∧
      (updateExisting plan p box it).id = it.id ∧
      (updateExisting plan p box it).manufacturer = it.manufacturer ∧
      (updateExisting plan p box it).pallet_id = it.pallet_id ∧
      (updateExisting plan p box it).box_id = it.box_id) ∧
    (∀ (it : Item) (c : Int) (dm : Bool) (l ds bp qr : Str),
      (updateItemFromExcel it c dm l ds bp qr).status = it.status ∧
      (updateItemFromExcel it c dm l ds bp qr).checked_out_by = it.checked_out_by ∧
      (updateItemFromExcel it c dm l ds bp qr).checked_out_at = it.checked_out_at ∧
      (updateItemFromExcel it c dm l ds bp qr).archived = it.archived ∧
      (updateItemFromExcel it c dm l ds bp qr).archived_at = it.archived_at ∧
      (updateItemFromExcel it c dm l ds bp qr).id = it.id ∧
      (updateItemFromExcel it c dm l ds bp qr).manufacturer = it.manufacturer ∧
      (updateItemFromExcel it c dm l ds bp qr).pallet_id = it.pallet_id ∧
      (updateItemFromExcel it c dm l ds bp qr).box_id = it.box_id ∧
      (updateItemFromExcel it c dm l ds bp qr).project_number = it.project_number ∧
      (updateItemFromExcel it c dm l ds bp qr).tags = it.tags) ∧
    (∀ (plan : Plan) (p : Str) (box : Nat) (db : List Item),
      (db.find? (keyMatch plan.manufacturer p box)).isSome = true →
      upsertBox plan p box db =
        replaceFirst (keyMatch plan.manufacturer p box) (updateExisting plan p box) db) := by
  refine ⟨?_, ?_, ?_⟩
  · intro plan p box it
    exact ⟨rfl, rfl, rfl, rfl, rfl, rfl, rfl, rfl, rfl⟩
  · intro it c dm l ds bp qr
    exact ⟨rfl, rfl, rfl, rfl, rfl, rfl, rfl, rfl, rfl, rfl, rfl⟩
  · intro plan p box db h
    simp [upsertBox, h]

/-- A checked-out, archived row on (Acme Corp, pallet "1", box 1). -/
def itemOut : Item :=
  { itemA with
    status := str "checked_out"
    checked_out_by := str "alice"
    checked_out_at := some 3
    archived := true
    archived_at := some 4 }

/-- A one-box re-submission plan for Acme Corp. -/
def planW : Plan :=
  { manufacturer := str "Acme Corp"
    project_number := []
    location := str "York, PA"
    description := []
    tags := []
    num_boxes := 1
    items_per_box := 7
    damagedGlobal := false
    damaged_box_set := [] }

/-- Witness for C3's conditional part: the checked-out, archived row on
(Acme Corp, pallet "1", box 1) is found and fed through `updateExisting`,
so its lifecycle state is preserved by the frame theorem. -/
theorem shipment_upsert_frame_witness :
    (([itemOut] : List Item).find?
      (keyMatch (str "Acme Corp") (str "1") 1)).isSome = true ∧
    upsertBox planW (str "1") 1 [itemOut] =
      replaceFirst (keyMatch (str "Acme Corp") (str "1") 1)
        (updateExisting planW (str "1") 1) [itemOut] ∧
    (updateExisting planW (str "1") 1 itemOut).status = itemOut.status := by
  refine ⟨by decide, ?_, (shipment_upsert_frame.1 planW (str "1") 1 itemOut).1⟩
  have h : planW.manufacturer = str "Acme Corp" := rfl
  have := shipment_upsert_frame.2.2 planW (str "1") 1 [itemOut] (by decide)
  rwa [h] at this

/-! ### C4 — status transitions, history rows and checkout attribution -/

/-- The checkout-attribution invariant of the data model: an item that is
not checked out carries no attribution. -/
def checkoutInv (it : Item) : Prop :=
  it.status ≠ str "checked_out" → (it.checked_out_by = [] ∧ it.checked_out_at = none)

/-- Case analysis of the shared status mutation. -/
theorem applyStatusChange_parts (item : Item) (sv cb : Str) (now : Nat) :
    (applyStatusChange item sv cb now).status = sv ∧
    (sv = str "checked_out" →
      (applyStatusChange item sv cb now).checked_out_by = cb ∧
      (applyStatusChange item sv cb now).checked_out_at = some now) ∧
    (sv ≠ str "checked_out" → item.status = str "checked_out" →
      (applyStatusChange item sv cb now).checked_out_by = [] ∧
      (applyStatusChange item sv cb now).checked_out_at = none) ∧
    (sv ≠ str "checked_out" → item.status ≠ str "checked_out" →
      (applyStatusChange item sv cb now).checked_out_by = item.checked_out_by ∧
      (applyStatusChange item sv cb now).checked_out_at = item.checked_out_at) := by
  by_cases h1 : sv = str "checked_out" <;> by_cases h2 : item.status = str "checked_out" <;>
    simp [applyStatusChange, h1, h2]

/-- Under the checkout invariant, the attribution is (actor, now) after the
mutation exactly when the new status is checked_out. -/
theorem applyStatusChange_attribution_iff (item : Item) (sv cb : Str) (now : Nat)
    (hinv : checkoutInv item) :
    ((applyStatusChange item sv cb now).checked_out_at = some now ∧
     (applyStatusChange item sv cb now).checked_out_by = cb) ↔
    sv = str "checked_out" := by
  obtain ⟨-, hset, hclear, hkeep⟩ := applyStatusChange_parts item sv cb now
  constructor
  · intro ⟨hat, hby⟩
    by_contra h1
    by_cases h2 : item.status = str "checked_out"
    · rw [(hclear h1 h2).2] at hat
      exact Option.noConfusion hat
    · rw [(hkeep h1 h2).2, (hinv h2).2] at hat
      exact Option.noConfusion hat
  · intro h1
    exact ⟨(hset h1).2, (hset h1).1⟩

/-- The inline mutation of `bulk_update_status` equals the shared one (the
missing `and status_value != 'checked_out'` conjunct of its `elif` is
unreachable when the first branch was taken). -/
theorem bulk_item_eq_applyStatusChange (item : Item) (ns notes cb : Str) (now : Nat) :
    (bulk_update_status_item item ns notes cb now).1 = applyStatusChange item ns cb now := by
  by_cases h1 : ns = str "checked_out" <;> by_cases h2 : item.status = str "checked_out" <;>
    simp [bulk_update_status_item, applyStatusChange, h1, h2]

/-- The history row written by `bulk_update_status`. -/
theorem bulk_item_hist (item : Item) (ns notes cb : Str) (now : Nat) :
    (bulk_update_status_item item ns notes cb now).2 =
      ⟨item.id, item.status, ns,
        if notes.isEmpty then str "Bulk status update" else notes, cb⟩ := by
  by_cases h1 : ns = str "checked_out" <;> by_cases h2 : item.status = str "checked_out" <;>
    simp [bulk_update_status_item, h1, h2]

/-- With a present, known and actually-changing status, the status block of
`edit_item` performs the shared mutation (its `elif` lacks the
`!= 'checked_out'` conjunct, which is unreachable) and reports the change. -/
theorem editStatusApply_changed (d : EditPatch) (now : Nat) (it : Item) (ns : Str)
    (hds : d.status = some ns) (hv : isValidStatusCode ns = true)
    (hne : ns ≠ it.status) :
    editStatusApply d now it = (applyStatusChange it ns d.changed_by now, true) := by
  have hcond : isValidStatusCode ns = true ∧ ns ≠ it.status := ⟨hv, hne⟩
  simp only [editStatusApply, hds]
  rw [if_pos hcond]
  by_cases h1 : ns = str "checked_out"
  · by_cases h2 : it.status = str "checked_out"
    · exact absurd (h1.trans h2.symm) hne
    · simp [applyStatusChange, h1, h2]
  · by_cases h2 : it.status = str "checked_out"
    · simp [applyStatusChange, h1, h2]
    · simp [applyStatusChange, h1, h2]

/-- With a present status that is unknown or unchanged, the status block of
`edit_item` does nothing. -/
theorem editStatusApply_skipped (d : EditPatch) (now : Nat) (it : Item) (ns : Str)
    (hds : d.status = some ns)
    (hcond : ¬(isValidStatusCode ns = true ∧ ns ≠ it.status)) :
    editStatusApply d now it = (it, false) := by
  simp only [editStatusApply, hds]
  rw [if_neg hcond]

/-- With no status in the patch, the status block of `edit_item` does
nothing. -/
theorem editStatusApply_none (d : EditPatch) (now : Nat) (it : Item)
    (hds : d.status = none) :
    editStatusApply d now it = (it, false) := by
  simp [editStatusApply, hds]

/-- C4: on every successful status update — single (`update_status`), bulk
(per item of `bulk_update_status`), or via `edit_item` — the written
StatusHistory row has `old_status` = the item's pre-call status and
`new_status` = the requested status; the checkout attribution is set to
(actor, now) when the new status is checked_out (and, under the
checkout-attribution invariant, only then), is cleared when leaving
checked_out, and is untouched otherwise. -/
theorem status_change_audit_spec :
    (∀ (item : Item) (ns notes cb : Str) (now : Nat) (item' : Item) (h : HistEntry),
      update_status item ns notes cb now = .ok (item', h) →
      h.old_status = item.status ∧
      assocGet status_mapping ns = some h.new_status ∧
      item'.status = h.new_status ∧
      (h.new_status = str "checked_out" →
        item'.checked_out_by = cb ∧ item'.checked_out_at = some now) ∧
      (h.new_status ≠ str "checked_out" → item.status = str "checked_out" →
        item'.checked_out_by = [] ∧ item'.checked_out_at = none) ∧
      (h.new_status ≠ str "checked_out" → item.status ≠ str "checked_out" →
        item'.checked_out_by = item.checked_out_by ∧
        item'.checked_out_at = item.checked_out_at) ∧
      (checkoutInv item →
        ((item'.checked_out_at = some now ∧ item'.checked_out_by = cb) ↔
          h.new_status = str "checked_out"))) ∧
    (∀ (item : Item) (ns notes cb : Str) (now : Nat),
      (bulk_update_status_item item ns notes cb now).2.old_status = item.status ∧
      (bulk_update_status_item item ns notes cb now).2.new_status = ns ∧
      (bulk_update_status_item item ns notes cb now).1.status = ns ∧
      (ns = str "checked_out" →
        (bulk_update_status_item item ns notes cb now).1.checked_out_by = cb ∧
        (bulk_update_status_item item ns notes cb now).1.checked_out_at = some now) ∧
      (ns ≠ str "checked_out" → item.status = str "checked_out" →
        (bulk_update_status_item item ns notes cb now).1.checked_out_by = [] ∧
        (bulk_update_status_item item ns notes cb now).1.checked_out_at = none) ∧
      (ns ≠ str "checked_out" → item.status ≠ str "checked_out" →
        (bulk_update_status_item item ns notes cb now).1.checked_out_by = item.checked_out_by ∧
        (bulk_update_status_item item ns notes cb now).1.checked_out_at = item.checked_out_at) ∧
      (checkoutInv item →
        (((bulk_update_status_item item ns notes cb now).1.checked_out_at = some now ∧
          (bulk_update_status_item item ns notes cb now).1.checked_out_by = cb) ↔
          ns = str "checked_out"))) ∧
    (∀ (item : Item) (d : EditPatch) (now : Nat) (item' : Item) (h : HistEntry)
        (ch : List ChangeEntry),
      edit_item item d now = .ok (item', some h, ch) →
      h.old_status = item.status ∧
      d.status = some h.new_status ∧
      isValidStatusCode h.new_status = true ∧
      h.new_status ≠ item.status ∧
      item'.status = h.new_status ∧
      (h.new_status = str "checked_out" →
        item'.checked_out_by = d.changed_by ∧ item'.checked_out_at = some now) ∧
      (h.new_status ≠ str "checked_out" → item.status = str "checked_out" →
        item'.checked_out_by = [] ∧ item'.checked_out_at = none) ∧
      (h.new_status ≠ str "checked_out" → item.status ≠ str "checked_out" →
        item'.checked_out_by = item.checked_out_by ∧
        item'.checked_out_at = item.checked_out_at)) := by
  refine ⟨?_, ?_, ?_⟩
  · intro item ns notes cb now item' h heq
    cases hm : assocGet status_mapping ns with
    | none => simp [update_status, hm] at heq
    | some sv =>
      simp only [update_status, hm, Except.ok.injEq, Prod.mk.injEq] at heq
      obtain ⟨hi, hh⟩ := heq
      subst hi
      subst hh
      obtain ⟨hst, hset, hclear, hkeep⟩ := applyStatusChange_parts item sv cb now
      exact ⟨rfl, rfl, hst, hset, hclear, hkeep,
        fun hinv => applyStatusChange_attribution_iff item sv cb now hinv⟩
  · intro item ns notes cb now
    obtain ⟨hst, hset, hclear, hkeep⟩ := applyStatusChange_parts item ns cb now
    rw [bulk_item_hist, bulk_item_eq_applyStatusChange]
    exact ⟨rfl, rfl, hst, hset, hclear, hkeep,
      fun hinv => applyStatusChange_attribution_iff item ns cb now hinv⟩
  · intro item d now item' h ch heq
    by_cases hc : d.content = some none
    · simp [edit_item, hc] at heq
    · simp only [edit_item, hc, if_false, Except.ok.injEq, Prod.mk.injEq] at heq
      obtain ⟨hi, hh, -⟩ := heq
      obtain ⟨hfr1, hfr2, hfr3, -, -, -⟩ := editFieldsApply_pres item d
      cases hds : d.status with
      | none =>
        rw [editStatusApply_none d now _ hds] at hh
        simp at hh
      | some ns =>
        by_cases hcond : isValidStatusCode ns = true ∧
            ns ≠ (editFieldsApply item d).status
        · rw [editStatusApply_changed d now _ ns hds hcond.1 hcond.2] at hi hh
          obtain ⟨hst, hset, hclear, hkeep⟩ :=
            applyStatusChange_parts (editFieldsApply item d) ns d.changed_by now
          have hh' : h = ⟨item.id, (editFieldsApply item d).status,
              (applyStatusChange (editFieldsApply item d) ns d.changed_by now).status,
              d.notes, d.changed_by⟩ := (Option.some.inj hh).symm
          subst hh'
          subst hi
          refine ⟨hfr1, ?_, ?_, ?_, rfl, ?_, ?_, ?_⟩
          · simp only [hst]
          · simpa only [hst] using hcond.1
          · simp only [hst]
            exact hfr1 ▸ hcond.2
          · simp only [hst]
            intro hns
            exact hset hns
          · simp only [hst]
            intro hns hold
            exact hclear hns (hfr1.symm ▸ hold)
          · simp only [hst]
            intro hns hold
            obtain ⟨ha, hb⟩ := hkeep hns (hfr1.symm ▸ hold)
            exact ⟨ha.trans hfr2, hb.trans hfr3⟩
        · rw [editStatusApply_skipped d now _ ns hds hcond] at hh
          simp at hh

/-- A patch that only checks the item out, attributed to carol. -/
def patchW : EditPatch :=
  { content := none
    damaged := none
    location := none
    description := none
    project_number := none
    manufacturer := none
    tags := none
    status := some (str "checked_out")
    notes := []
    changed_by := str "carol" }

/-- Witness for C4: checking `itemB` back in via `update_status` writes a
history row whose old status is `itemB`'s checked_out, and checking
`itemA` out via `edit_item` attributes the checkout to carol. -/
theorem status_change_audit_spec_witness :
    (⟨2, str "checked_out", str "checked_in", [], str "bob"⟩ : HistEntry).old_status
      = itemB.status ∧
    ({ itemA with status := str "checked_out", checked_out_by := str "carol", checked_out_at := some 5 } : Item).checked_out_by = str "carol" ∧
    ({ itemA with status := str "checked_out", checked_out_by := str "carol", checked_out_at := some 5 } : Item).checked_out_at = some 5 := by
  refine ⟨?_, ?_⟩
  · exact (status_change_audit_spec.1 itemB (str "Checked In") [] (str "bob") 9
      { itemB with status := str "checked_in", checked_out_by := [], checked_out_at := none }
      ⟨2, str "checked_out", str "checked_in", [], str "bob"⟩ rfl).1
  · exact (status_change_audit_spec.2.2 itemA patchW 5
      { itemA with status := str "checked_out", checked_out_by := str "carol", checked_out_at := some 5 }
      ⟨1, str "checked_in", str "checked_out", [], str "carol"⟩ [] rfl).2.2.2.2.2.1 rfl

/-! ### C6 — validation error aggregation -/

/-- The multi-violation submission of the claim: blank manufacturer,
non-numeric box count, negative items-per-box, blank location. -/
def rawMulti : RawShipment :=
  { manufacturer := []
    project_number := str "PRJ-001"
    num_boxes := str "abc"
    items_per_box := str "-1"
    location := []
    location_custom := []
    damaged := str "no"
    description := []
    damaged_boxes := []
    tags := []
    count_exceptions := [] }

/-- C6: submitting manufacturer="", num_boxes="abc", items_per_box="-1",
location="" yields the four distinct error messages of the four violated
rules in one response (so at least 3), and — whatever the current table —
`add_shipment` returns the error list without creating any item. -/
theorem validation_aggregation_spec :
    shipErrors rawMulti =
      [str "Manufacturer / Supplier is required.",
       str "Receiving Location is required.",
       str "Number of boxes must be a valid number.",
       str "Items per box must be at least 1."] ∧
    (shipErrors rawMulti).Nodup ∧
    3 ≤ (shipErrors rawMulti).length ∧
    (∀ db : List Item, add_shipment rawMulti db = .error (shipErrors rawMulti)) := by
  refine ⟨rfl, by decide, by decide, ?_⟩
  intro db
  rfl

/-! ### C2 — count exceptions are not implemented (code bug) -/

/-- The count-exception submission of the claim (and of the repository's
own test `test_valid_count_exception`): 3 boxes, 10 items per box,
exception "2:25". -/
def rawCE : RawShipment :=
  { manufacturer := str "Acme Corp"
    project_number := str "PRJ-001"
    num_boxes := str "3"
    items_per_box := str "10"
    location := str "York, PA"
    location_custom := []
    damaged := str "no"
    description := str "Standard widgets"
    damaged_boxes := []
    tags := []
    count_exceptions := str "2:25" }

/-- The malformed-token submission of the claim (test
`test_bad_exception_format_missing_colon`): exception "3-20" without a
colon. -/
def rawBadTok : RawShipment :=
  { rawCE with
    num_boxes := str "5"
    count_exceptions := str "3-20" }

/-- C2 (code bug): `add_shipment` never reads the `count_exceptions`
field.  On the claim's input the created items all carry content 10 — box
2 does not get 25 — and the malformed token "3-20" produces no validation
error at all, although the repository's own tests assert both behaviours. -/
theorem add_shipment_ignores_count_exceptions :
    (add_shipment rawCE []).toOption.map
        (fun db => db.map (fun it => (it.box_id, it.content)))
      = some [(1, 10), (2, 10), (3, 10)] ∧
    (10 : Int) ≠ 25 ∧
    shipErrors rawBadTok = [] ∧
    add_shipment rawBadTok [] =
      .ok (applyShipment (planOf rawBadTok) (next_pallet_id []) []) := by
  exact ⟨rfl, by decide, rfl, rfl⟩

/-! ### C5 — idempotence of the shipment upsert -/

/-- The row for (manufacturer, pallet, box) exists and already carries the
planned field values (re-updating it is a no-op). -/
def Planted (plan : Plan) (p : Str) (box : Nat) (db : List Item) : Prop :=
  ∃ it, db.find? (keyMatch plan.manufacturer p box) = some it ∧
        updateExisting plan p box it = it

/-- Re-applying the update branch is a no-op. -/
theorem updateExisting_idem (plan : Plan) (p : Str) (box : Nat) (it : Item) :
    updateExisting plan p box (updateExisting plan p box it) =
      updateExisting plan p box it := rfl

/-- A freshly created row already carries the planned field values. -/
theorem updateExisting_newItem (plan : Plan) (p : Str) (box : Nat) (id : Nat) :
    updateExisting plan p box (newItemFor plan p box id) =
      newItemFor plan p box id := rfl

/-- The update branch does not change the identifying key, so key matching
is unaffected. -/
theorem keyMatch_updateExisting (m' p' : Str) (b' : Nat)
    (plan : Plan) (p : Str) (box : Nat) (it : Item) :
    keyMatch m' p' b' (updateExisting plan p box it) = keyMatch m' p' b' it := rfl

/-- A fresh row matches its own key. -/
theorem keyMatch_newItem (plan : Plan) (p : Str) (box : Nat) (id : Nat) :
    keyMatch plan.manufacturer p box (newItemFor plan p box id) = true := by
  simp [keyMatch, newItemFor]

/-- Rows with different box numbers never share a key. -/
theorem keyMatch_disjoint (m p : Str) (box box' : Nat) (hne : box ≠ box') (x : Item)
    (h : keyMatch m p box' x = true) : keyMatch m p box x = false := by
  have h2 : x.box_id = box' := by
    simp only [keyMatch, Bool.and_eq_true, beq_iff_eq] at h
    exact h.2
  have hb : (x.box_id == box) = false :=
    beq_eq_false_iff_ne.mpr (fun hx => hne (hx.symm.trans h2))
  unfold keyMatch
  rw [hb, Bool.and_false]

/-- Finding under `q` after replacing the first `q`-hit by its `f`-image,
when `f` preserves `q`. -/
theorem find?_replaceFirst_self (q : Item → Bool) (f : Item → Item)
    (hq : ∀ x, q (f x) = q x) :
    ∀ db : List Item, (replaceFirst q f db).find? q = (db.find? q).map f := by
  intro db
  induction db with
  | nil => rfl
  | cons it rest ih =>
    cases hit : q it with
    | true =>
      simp only [replaceFirst, hit, if_true]
      rw [List.find?_cons_of_pos _ ((hq it).trans hit),
        List.find?_cons_of_pos _ hit, Option.map_some']
    | false =>
      simp only [replaceFirst, hit, Bool.false_eq_true, if_false]
      rw [List.find?_cons_of_neg _ (by simp [hit]),
        List.find?_cons_of_neg _ (by simp [hit])]
      exact ih

/-- Replacing the first `q'`-hit is invisible to a disjoint key `q`. -/
theorem find?_replaceFirst_other (q q' : Item → Bool) (f : Item → Item)
    (hq : ∀ x, q (f x) = q x) (hdisj : ∀ x, q' x = true → q x = false) :
    ∀ db : List Item, (replaceFirst q' f db).find? q = db.find? q := by
  intro db
  induction db with
  | nil => rfl
  | cons it rest ih =>
    cases hit : q' it with
    | true =>
      simp only [replaceFirst, hit, if_true]
      rw [List.find?_cons_of_neg _ (by simp [hq it, hdisj it hit]),
        List.find?_cons_of_neg _ (by simp [hdisj it hit])]
    | false =>
      simp only [replaceFirst, hit, Bool.false_eq_true, if_false]
      cases hq2 : q it with
      | true => rw [List.find?_cons_of_pos _ hq2, List.find?_cons_of_pos _ hq2]
      | false =>
        rw [List.find?_cons_of_neg _ (by simp [hq2]),
          List.find?_cons_of_neg _ (by simp [hq2])]
        exact ih

/-- After upserting a box, its row exists and carries the planned values. -/
theorem upsertBox_planted (plan : Plan) (p : Str) (box : Nat) (db : List Item) :
    Planted plan p box (upsertBox plan p box db) := by
  by_cases hfind : (db.find? (keyMatch plan.manufacturer p box)).isSome = true
  · obtain ⟨it, hit⟩ := Option.isSome_iff_exists.mp hfind
    refine ⟨updateExisting plan p box it, ?_, updateExisting_idem plan p box it⟩
    rw [upsertBox, if_pos hfind,
      find?_replaceFirst_self _ _ (fun x => keyMatch_updateExisting _ _ _ plan p box x) db,
      hit, Option.map_some']
  · have hnone : db.find? (keyMatch plan.manufacturer p box) = none :=
      Option.not_isSome_iff_eq_none.mp hfind
    refine ⟨newItemFor plan p box (nextItemId db), ?_,
      updateExisting_newItem plan p box (nextItemId db)⟩
    have hnew : List.find? (keyMatch plan.manufacturer p box)
        [newItemFor plan p box (nextItemId db)] =
        some (newItemFor plan p box (nextItemId db)) :=
      List.find?_cons_of_pos _ (keyMatch_newItem plan p box (nextItemId db))
    rw [upsertBox, if_neg hfind, List.find?_append, hnone, hnew]
    rfl

/-- Upserting a different box leaves a planted box planted. -/
theorem upsertBox_planted_other (plan : Plan) (p : Str) (box box' : Nat)
    (hne : box ≠ box') (db : List Item) (hpl : Planted plan p box db) :
    Planted plan p box (upsertBox plan p box' db) := by
  obtain ⟨it, hit, hup⟩ := hpl
  by_cases hfind : (db.find? (keyMatch plan.manufacturer p box')).isSome = true
  · refine ⟨it, ?_, hup⟩
    rw [upsertBox, if_pos hfind,
      find?_replaceFirst_other _ _ _
        (fun x => keyMatch_updateExisting _ _ _ plan p box' x)
        (fun x hx => keyMatch_disjoint plan.manufacturer p box box' hne x hx) db,
      hit]
  · refine ⟨it, ?_, hup⟩
    rw [upsertBox, if_neg hfind, List.find?_append, hit]
    rfl

/-- After the whole creation loop, every processed (or already planted)
box is planted. -/
theorem foldl_upsert_planted (plan : Plan) (p : Str) :
    ∀ (bs : List Nat) (db : List Item) (box : Nat),
      (box ∈ bs ∨ Planted plan p box db) →
      Planted plan p box (bs.foldl (fun db b => upsertBox plan p b db) db) := by
  intro bs
  induction bs with
  | nil =>
    intro db box h
    rcases h with h | h
    · exact absurd h (List.not_mem_nil box)
    · exact h
  | cons b bs' ih =>
    intro db box h
    rw [List.foldl_cons]
    rcases h with h | h
    · rcases List.mem_cons.mp h with h | h
      · subst h
        exact ih _ box (Or.inr (upsertBox_planted plan p box db))
      · exact ih _ box (Or.inl h)
    · by_cases hb : box = b
      · subst hb
        exact ih _ box (Or.inr (upsertBox_planted plan p box db))
      · exact ih _ box (Or.inr (upsertBox_planted_other plan p box b hb db h))

/-- Replacing the first `q`-hit by itself is the identity. -/
theorem replaceFirst_found_fix (q : Item → Bool) (f : Item → Item) :
    ∀ (db : List Item) (it : Item), db.find? q = some it → f it = it →
      replaceFirst q f db = db := by
  intro db
  induction db with
  | nil => intro it h _; exact Option.noConfusion h
  | cons x rest ih =>
    intro it h hfix
    cases hx : q x with
    | true =>
      rw [List.find?_cons_of_pos _ hx] at h
      have hxit : x = it := Option.some.inj h
      subst hxit
      simp only [replaceFirst, hx, if_true, hfix]
    | false =>
      rw [List.find?_cons_of_neg _ (by simp [hx])] at h
      simp only [replaceFirst, hx, Bool.false_eq_true, if_false]
      rw [ih it h hfix]

/-- Upserting an already-planted box is a no-op. -/
theorem upsertBox_planted_noop (plan : Plan) (p : Str) (box : Nat) (db : List Item)
    (h : Planted plan p box db) : upsertBox plan p box db = db := by
  obtain ⟨it, hit, hup⟩ := h
  have hfind : (db.find? (keyMatch plan.manufacturer p box)).isSome = true := by
    rw [hit]; rfl
  rw [upsertBox, if_pos hfind]
  exact replaceFirst_found_fix _ _ db it hit hup

/-- Folding upserts over boxes that are all planted is a no-op. -/
theorem foldl_upsert_noop (plan : Plan) (p : Str) :
    ∀ (bs : List Nat) (db : List Item), (∀ b ∈ bs, Planted plan p b db) →
      bs.foldl (fun db b => upsertBox plan p b db) db = db := by
  intro bs
  induction bs with
  | nil => intro db _; rfl
  | cons b bs' ih =>
    intro db h
    rw [List.foldl_cons, upsertBox_planted_noop plan p b db (h b (List.mem_cons_self b bs'))]
    exact ih db (fun b' hb' => h b' (List.mem_cons_of_mem b hb'))

/-- C5: applying the same shipment plan twice against the same pallet id
yields exactly the same table as applying it once — the second run updates
each existing row in place with identical values, creates nothing, and
leaves the item count unchanged. -/
theorem applyShipment_idempotent (plan : Plan) (p : Str) (db : List Item) :
    applyShipment plan p (applyShipment plan p db) = applyShipment plan p db ∧
    (applyShipment plan p (applyShipment plan p db)).length =
      (applyShipment plan p db).length := by
  have h : applyShipment plan p (applyShipment plan p db) = applyShipment plan p db := by
    rw [applyShipment]
    exact foldl_upsert_noop plan p (boxRange plan.num_boxes) (applyShipment plan p db)
      (fun b hb => foldl_upsert_planted plan p (boxRange plan.num_boxes) db b (Or.inl hb))
  exact ⟨h, by rw [h]⟩

/-! ### C9 — scan-identifier round trip -/

/-- Characters `'0' + k` for `k < 10` are digits. -/
theorem digitChar_isDigit (k : Nat) (hk : k < 10) :
    (Char.ofNat (48 + k)).isDigit = true := by
  interval_cases k <;> decide

/-- A digit is not whitespace. -/
theorem isDigit_not_space (c : Char) (h : c.isDigit = true) : isPySpace c = false := by
  simp only [Char.isDigit, Bool.and_eq_true, decide_eq_true_eq] at h
  simp only [isPySpace, Char.isWhitespace]
  have h1 : c ≠ ' ' := fun he => by subst he; exact absurd h.1 (by decide)
  have h2 : c ≠ '\t' := fun he => by subst he; exact absurd h.1 (by decide)
  have h3 : c ≠ '\r' := fun he => by subst he; exact absurd h.1 (by decide)
  have h4 : c ≠ '\n' := fun he => by subst he; exact absurd h.1 (by decide)
  simp [h1, h2, h3, h4]

/-- Dropping under a predicate that fails everywhere is the identity. -/
theorem dropWhile_eq_self_of (p : Char → Bool) (l : Str)
    (h : ∀ c ∈ l, p c = false) : l.dropWhile p = l := by
  cases l with
  | nil => rfl
  | cons c rest =>
    rw [List.dropWhile_cons, if_neg (by simp [h c (List.mem_cons_self c rest)])]

/-- Stripping a string with no whitespace at all is the identity. -/
theorem trimChars_eq_self (s : Str) (h : ∀ c ∈ s, isPySpace c = false) :
    trimChars s = s := by
  unfold trimChars
  rw [dropWhile_eq_self_of _ s h,
    dropWhile_eq_self_of _ s.reverse (fun c hc => h c (List.mem_reverse.mp hc)),
    List.reverse_reverse]

/-- Every character the decimal renderer emits is a digit. -/
theorem natToCharsAux_digits : ∀ (fuel n : Nat) (acc : Str),
    (∀ c ∈ acc, c.isDigit = true) → ∀ c ∈ natToCharsAux fuel n acc, c.isDigit = true := by
  intro fuel
  induction fuel with
  | zero => intro n acc hacc c hc; exact hacc c hc
  | succ f ih =>
    intro n acc hacc c hc
    simp only [natToCharsAux] at hc
    have hacc' : ∀ c ∈ Char.ofNat (48 + n % 10) :: acc, c.isDigit = true := by
      intro x hx
      rcases List.mem_cons.mp hx with hx | hx
      · rw [hx]
        exact digitChar_isDigit (n % 10) (Nat.mod_lt n (by omega))
      · exact hacc x hx
    by_cases hn : n < 10
    · rw [if_pos hn] at hc
      exact hacc' c hc
    · rw [if_neg hn] at hc
      exact ih (n / 10) _ hacc' c hc

/-- `natToChars` emits only digits. -/
theorem natToChars_digits (n : Nat) : ∀ c ∈ natToChars n, c.isDigit = true :=
  natToCharsAux_digits (n + 1) n [] (fun c hc => absurd hc (List.not_mem_nil c))

/-- A string without any pipe character is one single split chunk. -/
theorem splitSepBar_no_bar : ∀ s : Str, '|' ∉ s → splitSepBar s = [s] := by
  intro s
  induction s with
  | nil => intro _; rfl
  | cons c t ih =>
    intro h
    cases t with
    | nil => rfl
    | cons d t2 =>
      cases t2 with
      | nil => rfl
      | cons e r =>
        have hd : d ≠ '|' := fun hd =>
          h (by rw [hd]; exact List.mem_cons_of_mem c (List.mem_cons_self '|' (e :: r)))
        have ht : '|' ∉ d :: e :: r := fun hm => h (List.mem_cons_of_mem c hm)
        rw [splitSepBar.eq_4, if_neg (fun hc => hd hc.2.1), ih ht]
        rfl

/-- Splitting after a pipe-free chunk peels off exactly that chunk. -/
theorem splitSepBar_append : ∀ a b : Str, '|' ∉ a →
    splitSepBar (a ++ ' ' :: '|' :: ' ' :: b) = a :: splitSepBar b := by
  intro a
  induction a with
  | nil =>
    intro b _
    rw [List.nil_append, splitSepBar.eq_4, if_pos ⟨rfl, rfl, rfl⟩]
  | cons c t ih =>
    intro b h
    have ht : '|' ∉ t := fun hm => h (List.mem_cons_of_mem c hm)
    have hih := ih b ht
    cases t with
    | nil =>
      simp only [List.cons_append, List.nil_append]
      rw [splitSepBar.eq_4,
        if_neg (by rintro ⟨-, h2, -⟩; exact absurd h2 (by decide)),
        splitSepBar.eq_4, if_pos ⟨rfl, rfl, rfl⟩]
      rfl
    | cons d t2 =>
      have hd : d ≠ '|' := fun hd => ht (by rw [hd]; exact List.mem_cons_self '|' t2)
      cases t2 with
      | nil =>
        simp only [List.cons_append, List.nil_append] at hih ⊢
        rw [splitSepBar.eq_4, if_neg (fun hcc => hd hcc.2.1), hih]
        rfl
      | cons e r =>
        simp only [List.cons_append] at hih ⊢
        rw [splitSepBar.eq_4, if_neg (fun hcc => hd hcc.2.1), hih]
        rfl

/-- Pipe-freeness is preserved by concatenation. -/
theorem no_bar_append (k v : Str) (h1 : '|' ∉ k) (h2 : '|' ∉ v) : '|' ∉ k ++ v := by
  intro hm
  rcases List.mem_append.mp hm with h | h
  · exact h1 h
  · exact h2 h

/-- The three parts of a well-formed payload. -/
theorem splitSepBar_payload (m p nb : Str)
    (hm1 : '|' ∉ m) (hp1 : '|' ∉ p) (hnb : '|' ∉ nb) :
    splitSepBar (str "MFR=" ++ m ++ str " | PALLET=" ++ p ++ str " | BOX=" ++ nb) =
      [str "MFR=" ++ m, str "PALLET=" ++ p, str "BOX=" ++ nb] := by
  have e1 : str " | PALLET=" = ' ' :: '|' :: ' ' :: str "PALLET=" := rfl
  have e2 : str " | BOX=" = ' ' :: '|' :: ' ' :: str "BOX=" := rfl
  have hb1 : '|' ∉ str "MFR=" ++ m := no_bar_append _ _ (by decide) hm1
  have hb2 : '|' ∉ str "PALLET=" ++ p := no_bar_append _ _ (by decide) hp1
  have hb3 : '|' ∉ str "BOX=" ++ nb := no_bar_append _ _ (by decide) hnb
  have hshape : str "MFR=" ++ m ++ str " | PALLET=" ++ p ++ str " | BOX=" ++ nb =
      (str "MFR=" ++ m) ++ ' ' :: '|' :: ' ' ::
        ((str "PALLET=" ++ p) ++ ' ' :: '|' :: ' ' :: (str "BOX=" ++ nb)) := by
    rw [e1, e2]
    simp [List.append_assoc]
  rw [hshape, splitSepBar_append _ _ hb1, splitSepBar_append _ _ hb2,
    splitSepBar_no_bar _ hb3]

/-- C9 counterexample: for an item created from the manufacturer "A | B"
(a legal, stripped form value containing the separator), decoding the scan
identifier does not recover the manufacturer — the claimed round trip
fails on the code. -/
theorem scan_roundtrip_fails_on_pipe :
    (scanLookupTriple (payloadFor (str "A | B") (str "1") 1)).1 = str "A" ∧
    str "A" ≠ str "A | B" := by
  exact ⟨rfl, by decide⟩

/-- C9 amended: for every item whose manufacturer and pallet id contain no
pipe character and carry no leading or trailing whitespace (shipment intake
strips both fields, and allocator-produced pallet ids are digit strings),
percent-decoding the scan identifier, splitting on " | ", splitting each
part on the first "=", and trimming recovers exactly the manufacturer, the
pallet id, and the decimal rendering of the box number. -/
theorem scan_roundtrip (m p : Str) (b : Nat)
    (hm1 : '|' ∉ m) (hm2 : trimChars m = m)
    (hp1 : '|' ∉ p) (hp2 : trimChars p = p) :
    scanLookupTriple (payloadFor m p b) = (m, p, natToChars b) := by
  have hnb1 : '|' ∉ natToChars b :=
    fun hmem => absurd (natToChars_digits b '|' hmem) (by decide)
  have hnb2 : trimChars (natToChars b) = natToChars b :=
    trimChars_eq_self _ (fun c hc => isDigit_not_space c (natToChars_digits b c hc))
  have hsplit : splitSepBar (payloadFor m p b) =
      [str "MFR=" ++ m, str "PALLET=" ++ p, str "BOX=" ++ natToChars b] :=
    splitSepBar_payload m p (natToChars b) hm1 hp1 hnb1
  have hpairs : payloadPairs
      [str "MFR=" ++ m, str "PALLET=" ++ p, str "BOX=" ++ natToChars b] =
      [(str "MFR", trimChars m), (str "PALLET", trimChars p),
       (str "BOX", trimChars (natToChars b))] := rfl
  simp only [scanLookupTriple]
  rw [hsplit, hpairs, hm2, hp2, hnb2]
  rfl

/-- Witness for C9's amended round trip at (Acme Corp, pallet "1", box 2). -/
theorem scan_roundtrip_witness :
    scanLookupTriple (payloadFor (str "Acme Corp") (str "1") 2) =
      (str "Acme Corp", str "1", natToChars 2) :=
  scan_roundtrip (str "Acme Corp") (str "1") 2
    (by decide) (by decide) (by decide) (by decide)
